import Mathlib

/-!
Verification of the TeamCity reporter
(src/src/catch2/reporters/catch_reporter_teamcity.cpp).

The reporter is embedded shallowly: each event handler becomes a Lean
function from the reporter state and the event payload to the new state
and the list of emitted output items (wire messages, diagnostic lines and
flushes).  Handlers that can execute undefined behaviour (reading the top
of an empty stack, dereferencing a null test-case pointer, a failing
assert) return Option, with none marking the undefined execution.
-/

namespace TeamCity

/-- Apostrophe character (kept out of string literals). -/
def aposC : Char := Char.ofNat 39

/-- Backtick character (kept out of string literals). -/
def btickC : Char := Char.ofNat 96

/-- Space character. -/
def spaceC : Char := Char.ofNat 32

/-- String holding a single apostrophe. -/
def aposS : String := String.singleton aposC

/-- String holding a single backtick. -/
def btickS : String := String.singleton btickC

/-- Models one replaceInPlace pass with a one-character pattern
(replaceInPlace lives in catch_string_manip, outside src/).  Modelled from
the spec: each substitution scans left to right and resumes after the
inserted replacement, so the replacement text is never re-scanned by the
same pass. -/
def subst1 (a : Char) (r : List Char) : List Char → List Char
  | [] => []
  | c :: cs => (if c = a then r else [c]) ++ subst1 a r cs

/-- Translation of escape (catch_reporter_teamcity.cpp lines 59-68):
the six replaceInPlace passes in source order, on the character list. -/
def escapeL (s : List Char) : List Char :=
  subst1 ']' ['|', ']']
    (subst1 '[' ['|', '[']
      (subst1 '\r' ['|', 'r']
        (subst1 '\n' ['|', 'n']
          (subst1 aposC [btickC]
            (subst1 '|' ['|', '|'] s)))))

/-- Translation of escape on String values. -/
def escape (s : String) : String := String.mk (escapeL s.data)

/-- Per-character description of the escaping: the six special characters
map to their wire sequences, every other character maps to itself. -/
def escChar (c : Char) : List Char :=
  if c = '|' then ['|', '|']
  else if c = aposC then [btickC]
  else if c = '\n' then ['|', 'n']
  else if c = '\r' then ['|', 'r']
  else if c = '[' then ['|', '[']
  else if c = ']' then ['|', ']']
  else [c]

/-- Concatenation of escChar over a character list. -/
def escList : List Char → List Char
  | [] => []
  | c :: cs => escChar c ++ escList cs

/-- Translation of normalizeNamespaceMarkers' scan loop
(catch_reporter_teamcity.cpp lines 37-44): find a double colon, replace it
with a dot, resume scanning right after the inserted dot. -/
def normColonsL : List Char → List Char
  | [] => []
  | [c] => [c]
  | c1 :: c2 :: rest =>
    if c1 = ':' ∧ c2 = ':' then '.' :: normColonsL rest
    else c1 :: normColonsL (c2 :: rest)

/-- Translation of normalizeNamespaceMarkers on String values. -/
def normalizeNamespaceMarkers (s : String) : String :=
  String.mk (normColonsL s.data)

/-- Translation of Tag: only the original text is read by this reporter. -/
structure Tag where
  original : String
deriving DecidableEq

/-- Translation of fileNameTag (lines 23-35): first tag whose text starts
with a hash yields the text after the hash, otherwise the empty string. -/
def fileNameTag : List Tag → String
  | [] => ""
  | t :: ts =>
    match t.original.data with
    | c :: rest => if c = '#' then String.mk rest else fileNameTag ts
    | [] => fileNameTag ts

/-- Translation of Catch::Timer as used here: start records the clock,
getElapsedMilliseconds subtracts it from the current clock.  The clock is
threaded into each handler as an explicit natural number. -/
structure Timer where
  startedAt : Nat
deriving DecidableEq

/-- Timer.start at the given clock value. -/
def Timer.start (now : Nat) : Timer := ⟨now⟩

/-- Timer.getElapsedMilliseconds at the given clock value. -/
def Timer.elapsed (t : Timer) (now : Nat) : Nat := now - t.startedAt

/-- Test-run payload: testRunStarting and testRunEnded read only the name. -/
structure TestRunInfo where
  name : String
deriving DecidableEq

/-- Translation of TestRunStats as read here (runInfo only). -/
structure TestRunStats where
  runInfo : TestRunInfo
deriving DecidableEq

/-- Test-case payload as read by this reporter: name, className, tags and
the allowed-to-fail flag (okToFail() is computed outside src/ from the
tags; modelled from the spec as the externally supplied
allowed-to-fail flag). -/
structure TestCaseInfo where
  name : String
  className : String
  tags : List Tag
  okToFail : Bool
deriving DecidableEq

/-- Section payload: the name, plus the source line used by the failure
header (SectionInfo.lineInfo, rendered as a string). -/
structure SectionInfo where
  name : String
  lineInfo : String
deriving DecidableEq

/-- Translation of SectionStats as read here (sectionInfo only). -/
structure SectionStats where
  sectionInfo : SectionInfo
deriving DecidableEq

/-- Translation of TestCaseStats as read here. -/
structure TestCaseStats where
  testInfo : TestCaseInfo
  stdOut : String
  stdErr : String
deriving DecidableEq

/-- Result kinds of ResultWas::OfType, as enumerated in the reporter's
switch statement (lines 98-128). -/
inductive ResultKind
  | Ok
  | Info
  | Warning
  | ExplicitSkip
  | ExpressionFailed
  | ThrewException
  | FatalErrorCondition
  | DidntThrowException
  | ExplicitFailure
  | Unknown
  | FailureBit
  | Exception
deriving DecidableEq

/-- Assertion result as read by assertionEnded: the kind, the isOk()
verdict (computed outside src/; modelled from the spec as a supplied
flag), the rendered source location, and the expression texts. -/
structure AssertionResult where
  kind : ResultKind
  ok : Bool
  sourceInfo : String
  hasExpr : Bool
  exprInMacro : String
  expandedExpr : String
deriving DecidableEq

/-- Captured info message attached to an assertion. -/
structure MessageInfo where
  message : String
deriving DecidableEq

/-- Translation of AssertionStats as read here. -/
structure AssertionStats where
  assertionResult : AssertionResult
  infoMessages : List MessageInfo
deriving DecidableEq

/-- Run configuration: m_config->name(). -/
structure Config where
  name : String
deriving DecidableEq

/-- One emitted wire message or diagnostic line.  Attribute fields hold
exactly the strings the code inserts between the quotes of the
service-message line (escaped where the code escapes). -/
inductive Msg
  | diag (text : String)
  | testSuiteStarted (name : String)
  | testSuiteFinished (name : String)
  | testStarted (name flowId : String)
  | testFinished (name : String) (duration : Nat) (flowId : String)
  | testStdOut (name out flowId : String)
  | testStdErr (name out flowId : String)
  | testIgnored (name message flowId : String)
  | testFailed (name message details flowId : String)
deriving DecidableEq

/-- One output-stream action: writing a message line, or flushing. -/
inductive Out
  | msg (m : Msg)
  | flush
deriving DecidableEq

/-- Reporter state: the members of TeamCityReporter mutated in src/, plus
the base-class members it reads.  m_sectionStack (the SectionInfo list of
the streaming base, outer first) and currentTestCaseInfo are maintained by
StreamingReporterBase outside src/ and are modelled from the spec:
the base records the currently open sections and the current test case. -/
structure State where
  lastTestCaseName : String
  lastTestCaseFullName : String
  sectionNameStack : List String
  timerStack : List Timer
  headerPrinted : Bool
  testTimer : Timer
  sectionStack : List SectionInfo
  currentTestCaseInfo : Option TestCaseInfo
deriving DecidableEq

/-- Freshly constructed reporter: empty stacks, header flag clear
(member initializers live in the header outside src/; modelled from the
spec's lifecycle: both stacks empty between test cases). -/
def initState : State :=
  { lastTestCaseName := ""
    lastTestCaseFullName := ""
    sectionNameStack := []
    timerStack := []
    headerPrinted := false
    testTimer := ⟨0⟩
    sectionStack := []
    currentTestCaseInfo := none }

/-- Translation of testRunStarting (lines 74-77): one testSuiteStarted
message, no flush, no state change. -/
def testRunStarting (s : State) (runInfo : TestRunInfo) : State × List Out :=
  (s, [Out.msg (Msg.testSuiteStarted (escape runInfo.name))])

/-- Translation of testRunEnded (lines 79-82): one testSuiteFinished
message, no flush, no state change. -/
def testRunEnded (s : State) (runStats : TestRunStats) : State × List Out :=
  (s, [Out.msg (Msg.testSuiteFinished (escape runStats.runInfo.name))])

/-- Translation of the class-name derivation inside testCaseStarting
(lines 184-199): strip spaces, fall back to the file-name tag and then to
the literal global dot, prefix with the configuration name, and normalize
double colons. -/
def deriveClassName (cfg : Config) (info : TestCaseInfo) : String :=
  let cleaned := String.mk (info.className.data.filter (fun c => c ≠ spaceC))
  let base :=
    if cleaned = "" then
      if fileNameTag info.tags = "" then "global." else fileNameTag info.tags
    else cleaned
  let prefixed :=
    if cfg.name = "" then base
    else cfg.name ++ ": " ++ cfg.name ++ "." ++ base
  normalizeNamespaceMarkers prefixed

/-- Translation of testCaseStarting (lines 174-208).  The base call stores
the current test-case info (StreamingReporterBase, outside src/; modelled
from the spec).  The handler starts the test timer, records the escaped
short name and the escaped fully qualified name, and emits the diagnostic
line, the testStarted message and a flush. -/
def testCaseStarting (s : State) (cfg : Config) (now : Nat)
    (info : TestCaseInfo) : State × List Out :=
  let testcaseName := escape info.name
  let full := escape (deriveClassName cfg info ++ testcaseName)
  ({ s with
      currentTestCaseInfo := some info
      testTimer := Timer.start now
      lastTestCaseName := testcaseName
      lastTestCaseFullName := full },
   [Out.msg (Msg.diag ("testCaseStarting:" ++ testcaseName ++ " FullName:" ++ full)),
    Out.msg (Msg.testStarted full full),
    Out.flush])

/-- Translation of testCaseEnded (lines 210-236): diagnostic line, a
testStdOut message when the captured standard output is non-empty, a
testStdErr message when the captured standard error is non-empty, then the
testFinished message with the elapsed duration, then a flush.  The base
call clears the current test-case info (outside src/; modelled from the
spec's lifecycle). -/
def testCaseEnded (s : State) (now : Nat) (stats : TestCaseStats) :
    State × List Out :=
  let testcaseName := escape stats.testInfo.name
  let full := s.lastTestCaseFullName
  ({ s with currentTestCaseInfo := none },
   [Out.msg (Msg.diag ("testCaseEnded:" ++ testcaseName ++ " FullName:" ++ full))]
   ++ (if stats.stdOut = "" then []
       else [Out.msg (Msg.testStdOut full (escape stats.stdOut) full)])
   ++ (if stats.stdErr = "" then []
       else [Out.msg (Msg.testStdErr full (escape stats.stdErr) full)])
   ++ [Out.msg (Msg.testFinished full (s.testTimer.elapsed now) full),
       Out.flush])

/-- Translation of sectionStarting (lines 238-273).  A section whose name
equals m_lastTestCaseName (the escaped test-case name) returns without any
effect.  Otherwise a fresh timer is pushed, the header flag is set to
true, the base records the open section (outside src/; modelled from the
spec), the correlation name is built from the stack top or the full
test-case name, pushed, and announced with a testStarted message. -/
def sectionStarting (s : State) (now : Nat) (info : SectionInfo) :
    State × List Out :=
  if s.lastTestCaseName = info.name then (s, [])
  else
    let testname :=
      match s.sectionNameStack with
      | top :: _ => escape (top ++ "/" ++ info.name)
      | [] => escape (s.lastTestCaseFullName ++ "/" ++ info.name)
    ({ s with
        timerStack := Timer.start now :: s.timerStack
        headerPrinted := true
        sectionStack := s.sectionStack ++ [info]
        sectionNameStack := testname :: s.sectionNameStack },
     [Out.msg (Msg.diag ("sectionStarting:" ++ testname)),
      Out.msg (Msg.testStarted testname testname),
      Out.flush])

/-- Translation of sectionEnded (lines 275-306).  A section whose name
equals m_lastTestCaseName returns without any effect.  Otherwise the base
pops its open-section record (outside src/; modelled from the spec), then
the code copies the top of the timer stack BEFORE checking the
correlation-name stack for emptiness: when the timer stack is empty this
reads the top of an empty std::stack, which is undefined behaviour,
modelled as none.  With a non-empty timer stack but an empty
correlation-name stack, only the anomaly diagnostic and a flush are
emitted.  Otherwise the testFinished message is emitted with the
re-escaped stack top and both stacks are popped. -/
def sectionEnded (s : State) (now : Nat) (stats : SectionStats) :
    Option (State × List Out) :=
  if s.lastTestCaseName = stats.sectionInfo.name then some (s, [])
  else
    match s.timerStack with
    | [] => none
    | newTimer :: timerRest =>
      match s.sectionNameStack with
      | [] => some ({ s with sectionStack := s.sectionStack.dropLast },
                    [Out.msg (Msg.diag "something wrong!!!"), Out.flush])
      | top :: nameRest =>
        let testname := escape top
        some ({ s with
                  sectionStack := s.sectionStack.dropLast
                  timerStack := timerRest
                  sectionNameStack := nameRest },
              [Out.msg (Msg.diag ("sectionEnded:" ++ testname)),
               Out.msg (Msg.testFinished testname (newTimer.elapsed now) testname),
               Out.flush])

/-- Separator line used by the failure header (lineOfChars from the
reporter helpers, outside src/; modelled from the spec: a separator
line of one repeated character). -/
def lineOfChars (c : Char) : String := String.mk (List.replicate 79 c)

/-- Header line for one open section (printHeaderString, lines 48-57).
The TextFlow column layout lives outside src/ and only affects wrapping of
long lines; modelled from the spec as the indented name on one line. -/
def printHeaderString (str : String) (indent : Nat) : String :=
  String.mk (List.replicate indent spaceC) ++ str ++ "\n"

/-- Concatenated header lines for the given sections. -/
def headerLines : List SectionInfo → String
  | [] => ""
  | si :: rest => printHeaderString si.name 0 ++ headerLines rest

/-- Translation of printSectionHeader (lines 308-326).  The assert
rules out an empty base section stack, and front() of an empty vector is
undefined; both are modelled as none. -/
def printSectionHeader (sectionStack : List SectionInfo) : Option String :=
  match sectionStack with
  | [] => none
  | first :: _ =>
    let sectionPart :=
      if sectionStack.length > 1 then
        lineOfChars '-' ++ "\n" ++ headerLines (sectionStack.drop 1)
          ++ lineOfChars '-' ++ "\n"
      else ""
    some (sectionPart ++ first.lineInfo ++ "\n" ++ lineOfChars '.' ++ "\n\n")

/-- Category text chosen by the switch on the result kind (lines 98-128);
none models the CATCH_ERROR calls, which throw. -/
def kindText : ResultKind → Option String
  | ResultKind.ExpressionFailed => some "expression failed"
  | ResultKind.ThrewException => some "unexpected exception"
  | ResultKind.FatalErrorCondition => some "fatal error condition"
  | ResultKind.DidntThrowException => some "no exception was thrown where one was expected"
  | ResultKind.ExplicitFailure => some "explicit failure"
  | ResultKind.ExplicitSkip => some "explicit skip"
  | _ => none

/-- Singular or plural info-message lead-in (lines 129-132). -/
def infoSuffix (ms : List MessageInfo) : String :=
  if ms.length = 1 then " with message:"
  else if 1 < ms.length then " with messages:"
  else ""

/-- Quoted info messages appended to the buffer (lines 133-134). -/
def msgsConcat : List MessageInfo → String
  | [] => ""
  | mi :: rest => "\n  \"" ++ mi.message ++ "\"" ++ msgsConcat rest

/-- Note appended in the allowed-to-fail branch (line 154). -/
def ignoreNote : String :=
  "- failure ignore as test marked as " ++ aposS ++ "ok to fail" ++ aposS ++ "\n"

/-- Expression detail attached to testFailed (lines 136-139). -/
def failedDetailOf (result : AssertionResult) : String :=
  if result.hasExpr then result.exprInMacro ++ "\n" ++ result.expandedExpr
  else ""

/-- Failure-message buffer contents at line 141: the header (when it was
printed into the buffer), the source location, the category text and the
info messages. -/
def buildMsg (stats : AssertionStats) (hdr ktext : String) : String :=
  hdr ++ stats.assertionResult.sourceInfo ++ "\n" ++ ktext
    ++ infoSuffix stats.infoMessages ++ msgsConcat stats.infoMessages

/-- Emission part of assertionEnded after the guards have passed
(lines 129-168): the message buffer is completed, the flow id is taken
from the correlation-name stack top or the full test-case name, the header
flag is set, and exactly one of testIgnored / testIgnored-with-note /
testFailed is emitted after the two diagnostic lines, followed by the
flush of line 170. -/
def failureOuts (s : State) (stats : AssertionStats) (tci : TestCaseInfo)
    (hdr ktext : String) : State × List Out :=
  let msgStr := buildMsg stats hdr ktext
  let flowId := s.sectionNameStack.headD s.lastTestCaseFullName
  let s2 := { s with headerPrinted := true }
  if stats.assertionResult.kind = ResultKind.ExplicitSkip then
    (s2, [Out.msg (Msg.diag ("result failed:" ++ escape msgStr)),
          Out.msg (Msg.diag "ResultWas::ExplicitSkip"),
          Out.msg (Msg.testIgnored (escape tci.name) (escape msgStr) flowId),
          Out.flush])
  else if tci.okToFail then
    (s2, [Out.msg (Msg.diag ("result failed:" ++ escape msgStr)),
          Out.msg (Msg.diag "ResultWas::okToFail"),
          Out.msg (Msg.testIgnored (escape tci.name)
            (escape (msgStr ++ ignoreNote)) flowId),
          Out.flush])
  else
    (s2, [Out.msg (Msg.diag ("result failed:" ++ escape msgStr)),
          Out.msg (Msg.diag "ResultWas::testFailed"),
          Out.msg (Msg.testFailed (escape tci.name) (escape msgStr)
            (escape (failedDetailOf stats.assertionResult)) flowId),
          Out.flush])

/-- Translation of assertionEnded (lines 84-172).  Results that are ok and
not an explicit skip only flush.  Otherwise the failure header is printed
into the buffer unless already printed (none when the base section stack
is empty: the assert in printSectionHeader), the current test-case info is
dereferenced (none when null), the switch picks the category text (none on
the CATCH_ERROR kinds, which throw), and the emission proceeds. -/
def assertionEnded (s : State) (stats : AssertionStats) :
    Option (State × List Out) :=
  if stats.assertionResult.ok = false
      ∨ stats.assertionResult.kind = ResultKind.ExplicitSkip then
    match s.currentTestCaseInfo with
    | none => none
    | some tci =>
      match (if s.headerPrinted then some ""
             else printSectionHeader s.sectionStack) with
      | none => none
      | some hdr =>
        match kindText stats.assertionResult.kind with
        | none => none
        | some ktext => some (failureOuts s stats tci hdr ktext)
  else
    some (s, [Out.flush])

/-- Wire messages of an output list: every message except the plain
diagnostic lines, in emission order. -/
def wireMsgs (outs : List Out) : List Msg :=
  outs.filterMap (fun o =>
    match o with
    | Out.msg (Msg.diag _) => none
    | Out.msg m => some m
    | Out.flush => none)

/-- All messages of an output list, diagnostics included. -/
def msgsOf (outs : List Out) : List Msg :=
  outs.filterMap (fun o =>
    match o with
    | Out.msg m => some m
    | Out.flush => none)

/-- Only the testStarted and testFinished messages, in emission order. -/
def startFinish (outs : List Out) : List Msg :=
  outs.filterMap (fun o =>
    match o with
    | Out.msg (Msg.testStarted n f) => some (Msg.testStarted n f)
    | Out.msg (Msg.testFinished n d f) => some (Msg.testFinished n d f)
    | _ => none)

/-- Messages written after the last flush, reading the list from the
right: empty exactly when nothing written remains unflushed. -/
def pendingRev : List Out → List Msg
  | [] => []
  | Out.flush :: _ => []
  | Out.msg m :: rest => pendingRev rest ++ [m]

/-- Messages of an output list that are still unflushed at its end. -/
def pendingAfter (outs : List Out) : List Msg := pendingRev outs.reverse

/-- Name attribute of a wire message, when it has one. -/
def msgName : Msg → Option String
  | Msg.diag _ => none
  | Msg.testSuiteStarted n => some n
  | Msg.testSuiteFinished n => some n
  | Msg.testStarted n _ => some n
  | Msg.testFinished n _ _ => some n
  | Msg.testStdOut n _ _ => some n
  | Msg.testStdErr n _ _ => some n
  | Msg.testIgnored n _ _ => some n
  | Msg.testFailed n _ _ _ => some n

/-! Helper lemmas about the string layer. -/

theorem subst1_append (a : Char) (r x y : List Char) :
    subst1 a r (x ++ y) = subst1 a r x ++ subst1 a r y := by
  induction x with
  | nil => rfl
  | cons c cs ih => simp [subst1, ih]

theorem escapeL_append (x y : List Char) :
    escapeL (x ++ y) = escapeL x ++ escapeL y := by
  simp [escapeL, subst1_append]

theorem escapeL_single (c : Char) : escapeL [c] = escChar c := by
  by_cases h1 : c = '|'
  · subst h1; decide
  by_cases h2 : c = aposC
  · subst h2; decide
  by_cases h3 : c = '\n'
  · subst h3; decide
  by_cases h4 : c = '\r'
  · subst h4; decide
  by_cases h5 : c = '['
  · subst h5; decide
  by_cases h6 : c = ']'
  · subst h6; decide
  simp [escapeL, subst1, escChar, h1, h2, h3, h4, h5, h6]

theorem escapeL_eq_escList (l : List Char) : escapeL l = escList l := by
  induction l with
  | nil => rfl
  | cons c cs ih =>
    have h : c :: cs = [c] ++ cs := rfl
    rw [h, escapeL_append, ih, escapeL_single]
    rfl

theorem escChar_len (c : Char) : 1 ≤ (escChar c).length := by
  unfold escChar
  split
  · simp
  split
  · simp
  split
  · simp
  split
  · simp
  split
  · simp
  split <;> simp

theorem escList_len (l : List Char) : l.length ≤ (escList l).length := by
  induction l with
  | nil => simp [escList]
  | cons c cs ih =>
    have h := escChar_len c
    simp only [escList, List.length_append, List.length_cons]
    omega

theorem escList_append (x y : List Char) :
    escList (x ++ y) = escList x ++ escList y := by
  induction x with
  | nil => rfl
  | cons c cs ih => simp [escList, ih]

theorem strData_append (a b : String) : (a ++ b).data = a.data ++ b.data := by
  cases a; cases b; rfl

theorem strMk_eq_empty (d : List Char) : String.mk d = "" ↔ d = [] := by
  constructor
  · intro h
    exact congrArg String.data h
  · intro h
    rw [h]

theorem str_ne_empty_iff (s : String) : s ≠ "" ↔ s.data ≠ [] := by
  cases s with
  | mk d => simp [strMk_eq_empty]

theorem escape_data (s : String) : (escape s).data = escList s.data := by
  show escapeL s.data = escList s.data
  exact escapeL_eq_escList s.data

theorem ne_escape_prefixed (cls t : String) (h : cls ≠ "") :
    t ≠ escape (cls ++ t) := by
  intro he
  have hd : t.data.length = (escape (cls ++ t)).data.length := by rw [← he]
  rw [escape_data, strData_append, escList_append] at hd
  have h1 : cls.data.length ≤ (escList cls.data).length := escList_len _
  have h2 : t.data.length ≤ (escList t.data).length := escList_len _
  have h3 : cls.data ≠ [] := (str_ne_empty_iff cls).mp h
  have h4 : 1 ≤ cls.data.length := by
    cases hc : cls.data with
    | nil => exact absurd hc h3
    | cons a l => simp
  simp only [List.length_append] at hd
  omega

theorem normColonsL_ne_nil (l : List Char) (h : l ≠ []) : normColonsL l ≠ [] := by
  cases l with
  | nil => exact absurd rfl h
  | cons c cs =>
    cases cs with
    | nil => simp [normColonsL]
    | cons c2 rest =>
      simp only [normColonsL]
      split <;> simp

theorem normalize_ne_empty (s : String) (h : s ≠ "") :
    normalizeNamespaceMarkers s ≠ "" := by
  rw [str_ne_empty_iff] at h ⊢
  exact normColonsL_ne_nil s.data h

theorem deriveClassName_ne_empty (cfg : Config) (info : TestCaseInfo) :
    deriveClassName cfg info ≠ "" := by
  unfold deriveClassName
  apply normalize_ne_empty
  by_cases hc : cfg.name = ""
  · rw [if_pos hc]
    by_cases h1 : String.mk (info.className.data.filter (fun c => c ≠ spaceC)) = ""
    · rw [if_pos h1]
      by_cases h2 : fileNameTag info.tags = ""
      · rw [if_pos h2]
        decide
      · rw [if_neg h2]
        exact h2
    · rw [if_neg h1]
      exact h1
  · rw [if_neg hc]
    rw [str_ne_empty_iff]
    intro hnil
    simp only [strData_append, List.append_eq_nil] at hnil
    exact (str_ne_empty_iff cfg.name).mp hc hnil.1.1.1.1

/-! Helper lemmas about the emission layer. -/

theorem wireMsgs_append (a b : List Out) :
    wireMsgs (a ++ b) = wireMsgs a ++ wireMsgs b := by
  unfold wireMsgs
  exact List.filterMap_append a b _

theorem msgsOf_append (a b : List Out) :
    msgsOf (a ++ b) = msgsOf a ++ msgsOf b := by
  unfold msgsOf
  exact List.filterMap_append a b _

theorem startFinish_append (a b : List Out) :
    startFinish (a ++ b) = startFinish a ++ startFinish b := by
  unfold startFinish
  exact List.filterMap_append a b _

theorem pendingAfter_flush_end (l : List Out) :
    pendingAfter (l ++ [Out.flush]) = [] := by
  simp [pendingAfter, pendingRev, List.reverse_append]

theorem failureOuts_state (s : State) (stats : AssertionStats)
    (tci : TestCaseInfo) (hdr ktext : String) :
    (failureOuts s stats tci hdr ktext).1 = { s with headerPrinted := true } := by
  unfold failureOuts
  by_cases h1 : stats.assertionResult.kind = ResultKind.ExplicitSkip
  · simp [h1]
  by_cases h2 : tci.okToFail
  · simp [h1, h2]
  · simp [h1, h2]

theorem wireMsgs_failureOuts (s : State) (stats : AssertionStats)
    (tci : TestCaseInfo) (hdr ktext : String) :
    wireMsgs (failureOuts s stats tci hdr ktext).2 =
      [if stats.assertionResult.kind = ResultKind.ExplicitSkip then
         Msg.testIgnored (escape tci.name) (escape (buildMsg stats hdr ktext))
           (s.sectionNameStack.headD s.lastTestCaseFullName)
       else if tci.okToFail then
         Msg.testIgnored (escape tci.name)
           (escape (buildMsg stats hdr ktext ++ ignoreNote))
           (s.sectionNameStack.headD s.lastTestCaseFullName)
       else
         Msg.testFailed (escape tci.name) (escape (buildMsg stats hdr ktext))
           (escape (failedDetailOf stats.assertionResult))
           (s.sectionNameStack.headD s.lastTestCaseFullName)] := by
  unfold failureOuts
  by_cases h1 : stats.assertionResult.kind = ResultKind.ExplicitSkip
  · simp [h1, wireMsgs]
  by_cases h2 : tci.okToFail
  · simp [h1, h2, wireMsgs]
  · simp [h1, h2, wireMsgs]

theorem pendingAfter_failureOuts (s : State) (stats : AssertionStats)
    (tci : TestCaseInfo) (hdr ktext : String) :
    pendingAfter (failureOuts s stats tci hdr ktext).2 = [] := by
  unfold failureOuts
  by_cases h1 : stats.assertionResult.kind = ResultKind.ExplicitSkip
  · simp [h1, pendingAfter, pendingRev]
  by_cases h2 : tci.okToFail
  · simp [h1, h2, pendingAfter, pendingRev]
  · simp [h1, h2, pendingAfter, pendingRev]

theorem assertionEnded_shape (s : State) (stats : AssertionStats)
    (tci : TestCaseInfo) (ktext : String)
    (h1 : s.currentTestCaseInfo = some tci)
    (h2 : stats.assertionResult.ok = false
      ∨ stats.assertionResult.kind = ResultKind.ExplicitSkip)
    (h3 : kindText stats.assertionResult.kind = some ktext)
    (h4 : s.headerPrinted = true ∨ s.sectionStack ≠ []) :
    ∃ hdr, assertionEnded s stats = some (failureOuts s stats tci hdr ktext) := by
  unfold assertionEnded
  rw [if_pos h2, h1]
  by_cases hp : s.headerPrinted
  · refine ⟨"", ?_⟩
    simp [hp, h3]
  · have hsk : s.sectionStack ≠ [] := by
      rcases h4 with h4 | h4
      · exact absurd h4 hp
      · exact h4
    cases hs : s.sectionStack with
    | nil => exact absurd hs hsk
    | cons first rest =>
      refine ⟨?_, ?_⟩
      · exact ((if (first :: rest).length > 1 then
          lineOfChars '-' ++ "\n" ++ headerLines ((first :: rest).drop 1)
            ++ lineOfChars '-' ++ "\n" else "")
          ++ first.lineInfo ++ "\n" ++ lineOfChars '.' ++ "\n\n")
      · simp [hp, hs, printSectionHeader, h3]

theorem sectionStarting_push (s : State) (now : Nat) (info : SectionInfo)
    (hc : s.lastTestCaseName ≠ info.name) (hn : s.sectionNameStack = []) :
    sectionStarting s now info =
      ({ s with
          timerStack := Timer.start now :: s.timerStack
          headerPrinted := true
          sectionStack := s.sectionStack ++ [info]
          sectionNameStack := [escape (s.lastTestCaseFullName ++ "/" ++ info.name)] },
       [Out.msg (Msg.diag ("sectionStarting:"
          ++ escape (s.lastTestCaseFullName ++ "/" ++ info.name))),
        Out.msg (Msg.testStarted (escape (s.lastTestCaseFullName ++ "/" ++ info.name))
          (escape (s.lastTestCaseFullName ++ "/" ++ info.name))),
        Out.flush]) := by
  unfold sectionStarting
  rw [if_neg hc, hn]

theorem sectionEnded_pop (s : State) (now : Nat) (stats : SectionStats)
    (tmr : Timer) (trest : List Timer) (top : String) (nrest : List String)
    (hc : s.lastTestCaseName ≠ stats.sectionInfo.name)
    (ht : s.timerStack = tmr :: trest)
    (hn : s.sectionNameStack = top :: nrest) :
    sectionEnded s now stats =
      some ({ s with
                sectionStack := s.sectionStack.dropLast
                timerStack := trest
                sectionNameStack := nrest },
            [Out.msg (Msg.diag ("sectionEnded:" ++ escape top)),
             Out.msg (Msg.testFinished (escape top) (tmr.elapsed now) (escape top)),
             Out.flush]) := by
  unfold sectionEnded
  rw [if_neg hc, ht, hn]

theorem startFinish_testCaseEnded (s : State) (now : Nat) (stats : TestCaseStats) :
    startFinish (testCaseEnded s now stats).2 =
      [Msg.testFinished s.lastTestCaseFullName (s.testTimer.elapsed now)
        s.lastTestCaseFullName] := by
  by_cases hO : stats.stdOut = "" <;> by_cases hE : stats.stdErr = "" <;>
    simp [testCaseEnded, startFinish, hO, hE]

/-! Claim theorems. -/

/-- C6 counterexample: the spec asserts normalizeNamespaceMarkers
turns the string A:::B into A..B, but the left-to-right scan consumes the
first two colons and the remaining single colon cannot match, giving
A.:B. -/
theorem claim6_cex : normalizeNamespaceMarkers "A:::B" ≠ "A..B" := by decide

/-- C6 (amended): normalizeNamespaceMarkers replaces double colons left to
right, non-overlapping: A::B::C becomes A.B.C, A:::B becomes A.:B (the
stranded third colon survives), and four colons become two dots. -/
theorem claim6_thm :
    normalizeNamespaceMarkers "A::B::C" = "A.B.C"
    ∧ normalizeNamespaceMarkers "A:::B" = "A.:B"
    ∧ normalizeNamespaceMarkers "::::" = ".." := by
  refine ⟨by decide, by decide, by decide⟩

/-- C7: escape applies the six substitutions in source order, acts on each
character independently (so it alters no character outside the six special
ones and is total), and maps the example a|b'c(newline) to
a||b(backtick)c|n. -/
theorem claim7_thm : ∀ (s : String),
    (escape s).data = escList s.data
    ∧ (∀ c : Char, c ≠ '|' → c ≠ aposC → c ≠ '\n' → c ≠ '\r' → c ≠ '[' →
        c ≠ ']' → escChar c = [c])
    ∧ escape ("a|b" ++ aposS ++ "c\n") = "a||b" ++ btickS ++ "c|n" := by
  intro s
  refine ⟨escape_data s, ?_, by decide⟩
  intro c h1 h2 h3 h4 h5 h6
  simp [escChar, h1, h2, h3, h4, h5, h6]

/-- C7 witness at concrete inputs. -/
theorem claim7_wit :
    (escape "xy").data = escList "xy".data
    ∧ escChar 'x' = ['x']
    ∧ escape ("a|b" ++ aposS ++ "c\n") = "a||b" ++ btickS ++ "c|n" :=
  ⟨(claim7_thm "xy").1,
   (claim7_thm "xy").2.1 'x' (by decide) (by decide) (by decide) (by decide)
     (by decide) (by decide),
   (claim7_thm "xy").2.2⟩

/-- C3: at the failing input (a reachable state just after
testCaseStarting, with both stacks empty, receiving a section-end whose
name differs from the stored test-case name) the handler's first real
action is to copy the top of the empty timer stack, which is undefined
behaviour (modelled as none) — it never reaches the guarded
recoverable-warning path the claim describes. -/
theorem claim3_thm :
    (testCaseStarting initState ⟨""⟩ 0 ⟨"t", "", [], false⟩).1.sectionNameStack = []
    ∧ (testCaseStarting initState ⟨""⟩ 0 ⟨"t", "", [], false⟩).1.timerStack = []
    ∧ sectionEnded (testCaseStarting initState ⟨""⟩ 0 ⟨"t", "", [], false⟩).1 5
        ⟨⟨"s1", "f:1"⟩⟩ = none := by
  refine ⟨rfl, rfl, by decide⟩

/-- C2 counterexample: with a test case literally named a|b, a section
event also named a|b (equal to the test case's name) is NOT suppressed,
because the stored comparison key is the escaped name a||b: the handler
emits output and pushes onto the correlation-name stack. -/
theorem claim2_cex :
    (sectionStarting (testCaseStarting initState ⟨""⟩ 0 ⟨"a|b", "", [], false⟩).1 1
        ⟨"a|b", "L"⟩).2 ≠ []
    ∧ (sectionStarting (testCaseStarting initState ⟨""⟩ 0 ⟨"a|b", "", [], false⟩).1 1
        ⟨"a|b", "L"⟩).1.sectionNameStack
      ≠ (testCaseStarting initState ⟨""⟩ 0 ⟨"a|b", "", [], false⟩).1.sectionNameStack := by
  refine ⟨by decide, by decide⟩

/-- C2 (amended): a section event is suppressed — no emission, no state
change — exactly when its name equals m_lastTestCaseName, which holds the
ESCAPED test-case name (set by testCaseStarting to escape of the raw
name); for raw names this coincides with the claim only when the test-case
name contains no escapable character. -/
theorem claim2_thm : ∀ (s : State) (now : Nat) (info : SectionInfo)
    (stats : SectionStats),
    (info.name = s.lastTestCaseName → sectionStarting s now info = (s, []))
    ∧ (stats.sectionInfo.name = s.lastTestCaseName →
        sectionEnded s now stats = some (s, []))
    ∧ (∀ (s0 : State) (cfg : Config) (t : Nat) (tci : TestCaseInfo),
        (testCaseStarting s0 cfg t tci).1.lastTestCaseName = escape tci.name) := by
  intro s now info stats
  refine ⟨?_, ?_, ?_⟩
  · intro h
    unfold sectionStarting
    rw [if_pos h.symm]
  · intro h
    unfold sectionEnded
    rw [if_pos h.symm]
  · intro s0 cfg t tci
    rfl

/-- C2 witness: the suppressed path at a concrete reachable state (the
section event carries the escaped name a||b). -/
theorem claim2_wit :
    sectionStarting (testCaseStarting initState ⟨""⟩ 0 ⟨"a|b", "", [], false⟩).1 2
        ⟨"a||b", "L"⟩
      = ((testCaseStarting initState ⟨""⟩ 0 ⟨"a|b", "", [], false⟩).1, []) :=
  (claim2_thm (testCaseStarting initState ⟨""⟩ 0 ⟨"a|b", "", [], false⟩).1 2
    ⟨"a||b", "L"⟩ ⟨⟨"x", "y"⟩⟩).1 (by decide)

/-- C4 counterexample: a reachable trace (test case one opens a section
that never ends, then test case two starts) in which, right after
testCaseStarting, both stacks are non-empty and the header-printed flag is
still set — testCaseStarting neither resets the stacks nor clears the
flag. -/
theorem claim4_cex :
    (let s4 := (testCaseStarting (testCaseEnded (sectionStarting
        (testCaseStarting initState ⟨""⟩ 0 ⟨"t1", "", [], false⟩).1 1
        ⟨"s", "L"⟩).1 2 ⟨⟨"t1", "", [], false⟩, "", ""⟩).1 ⟨""⟩ 3
        ⟨"t2", "", [], false⟩).1;
      s4.sectionNameStack ≠ [] ∧ s4.timerStack ≠ [] ∧ s4.headerPrinted = true) := by
  decide

/-- C4 (amended): testCaseStarting leaves both stacks and the
header-printed flag exactly as they were (no reset, no clearing) — so the
stacks are empty after it precisely when they were empty before — and
every handler preserves equality of the timer-stack and
correlation-name-stack lengths. -/
theorem claim4_thm :
    (∀ (s : State) (cfg : Config) (now : Nat) (info : TestCaseInfo),
       (testCaseStarting s cfg now info).1.sectionNameStack = s.sectionNameStack
       ∧ (testCaseStarting s cfg now info).1.timerStack = s.timerStack
       ∧ (testCaseStarting s cfg now info).1.headerPrinted = s.headerPrinted)
    ∧ (∀ (s : State), s.timerStack.length = s.sectionNameStack.length →
       (∀ (now : Nat) (info : SectionInfo),
          (sectionStarting s now info).1.timerStack.length
            = (sectionStarting s now info).1.sectionNameStack.length)
       ∧ (∀ (now : Nat) (stats : SectionStats) (s2 : State) (outs : List Out),
          sectionEnded s now stats = some (s2, outs) →
            s2.timerStack.length = s2.sectionNameStack.length)
       ∧ (∀ (stats : AssertionStats) (s2 : State) (outs : List Out),
          assertionEnded s stats = some (s2, outs) →
            s2.timerStack.length = s2.sectionNameStack.length)
       ∧ (∀ (cfg : Config) (now : Nat) (info : TestCaseInfo),
          (testCaseStarting s cfg now info).1.timerStack.length
            = (testCaseStarting s cfg now info).1.sectionNameStack.length)
       ∧ (∀ (now : Nat) (stats : TestCaseStats),
          (testCaseEnded s now stats).1.timerStack.length
            = (testCaseEnded s now stats).1.sectionNameStack.length)
       ∧ (∀ (ri : TestRunInfo),
          (testRunStarting s ri).1.timerStack.length
            = (testRunStarting s ri).1.sectionNameStack.length)
       ∧ (∀ (rs : TestRunStats),
          (testRunEnded s rs).1.timerStack.length
            = (testRunEnded s rs).1.sectionNameStack.length)) := by
  constructor
  · intro s cfg now info
    exact ⟨rfl, rfl, rfl⟩
  · intro s h
    refine ⟨?_, ?_, ?_, ?_, ?_, ?_, ?_⟩
    · intro now info
      unfold sectionStarting
      by_cases hc : s.lastTestCaseName = info.name
      · simp [hc, h]
      · simp [hc, h]
    · intro now stats s2 outs heq
      unfold sectionEnded at heq
      by_cases hc : s.lastTestCaseName = stats.sectionInfo.name
      · rw [if_pos hc] at heq
        simp only [Option.some.injEq, Prod.mk.injEq] at heq
        rw [← heq.1]
        exact h
      · rw [if_neg hc] at heq
        cases ht : s.timerStack with
        | nil =>
          simp [ht] at heq
        | cons t rest =>
          cases hn : s.sectionNameStack with
          | nil =>
            rw [ht, hn] at h
            simp at h
          | cons top nr =>
            simp only [ht, hn, Option.some.injEq, Prod.mk.injEq] at heq
            rw [← heq.1]
            rw [ht, hn] at h
            simp at h
            simpa using h
    · intro stats s2 outs heq
      unfold assertionEnded at heq
      by_cases hc : stats.assertionResult.ok = false
          ∨ stats.assertionResult.kind = ResultKind.ExplicitSkip
      · rw [if_pos hc] at heq
        cases hci : s.currentTestCaseInfo with
        | none => rw [hci] at heq; exact absurd heq (by simp)
        | some tci =>
          rw [hci] at heq
          cases hh : (if s.headerPrinted then some ""
              else printSectionHeader s.sectionStack) with
          | none => rw [hh] at heq; exact absurd heq (by simp)
          | some hdr =>
            rw [hh] at heq
            cases hk : kindText stats.assertionResult.kind with
            | none => rw [hk] at heq; exact absurd heq (by simp)
            | some ktext =>
              rw [hk] at heq
              simp only [Option.some.injEq] at heq
              have hst : s2 = (failureOuts s stats tci hdr ktext).1 := by
                rw [heq]
              rw [hst, failureOuts_state]
              exact h
      · rw [if_neg hc] at heq
        simp only [Option.some.injEq, Prod.mk.injEq] at heq
        rw [← heq.1]
        exact h
    · intro cfg now info
      exact h
    · intro now stats
      exact h
    · intro ri
      exact h
    · intro rs
      exact h

/-- C4 witness: length preservation at a concrete state with one open
section. -/
theorem claim4_wit :
    (sectionStarting (sectionStarting (testCaseStarting initState ⟨""⟩ 0
        ⟨"t", "", [], false⟩).1 1 ⟨"s", "L"⟩).1 2 ⟨"u", "M"⟩).1.timerStack.length
      = (sectionStarting (sectionStarting (testCaseStarting initState ⟨""⟩ 0
        ⟨"t", "", [], false⟩).1 1 ⟨"s", "L"⟩).1 2 ⟨"u", "M"⟩).1.sectionNameStack.length :=
  (claim4_thm.2 (sectionStarting (testCaseStarting initState ⟨""⟩ 0
    ⟨"t", "", [], false⟩).1 1 ⟨"s", "L"⟩).1 (by decide)).1 2 ⟨"u", "M"⟩

/-- C8: testCaseEnded emits the diagnostic line, then a testStdOut message
exactly when the captured standard output is non-empty, then a testStdErr
message exactly when the captured standard error is non-empty, and always
ends with the testFinished message carrying the elapsed duration and the
full test-case name as both name and flowId. -/
theorem claim8_thm : ∀ (s : State) (now : Nat) (stats : TestCaseStats),
    msgsOf (testCaseEnded s now stats).2 =
      [Msg.diag ("testCaseEnded:" ++ escape stats.testInfo.name ++ " FullName:"
          ++ s.lastTestCaseFullName)]
      ++ (if stats.stdOut = "" then []
          else [Msg.testStdOut s.lastTestCaseFullName (escape stats.stdOut)
            s.lastTestCaseFullName])
      ++ (if stats.stdErr = "" then []
          else [Msg.testStdErr s.lastTestCaseFullName (escape stats.stdErr)
            s.lastTestCaseFullName])
      ++ [Msg.testFinished s.lastTestCaseFullName (s.testTimer.elapsed now)
          s.lastTestCaseFullName]
    ∧ (msgsOf (testCaseEnded s now stats).2).getLast? =
        some (Msg.testFinished s.lastTestCaseFullName (s.testTimer.elapsed now)
          s.lastTestCaseFullName) := by
  intro s now stats
  constructor <;> by_cases hO : stats.stdOut = "" <;> by_cases hE : stats.stdErr = "" <;>
    simp [testCaseEnded, msgsOf, hO, hE, List.getLast?]

/-- C9 counterexample: testRunStarting writes the testSuiteStarted message
but never flushes, so the message is still unflushed when the handler
returns. -/
theorem claim9_cex : pendingAfter (testRunStarting initState ⟨"run"⟩).2 ≠ [] := by
  decide

/-- C9 (amended): every handler except testRunStarting and testRunEnded
leaves no unflushed output behind; the two run-level handlers leave
exactly their suite message unflushed. -/
theorem claim9_thm :
    (∀ (s : State) (ri : TestRunInfo),
       pendingAfter (testRunStarting s ri).2 = [Msg.testSuiteStarted (escape ri.name)])
    ∧ (∀ (s : State) (rs : TestRunStats),
       pendingAfter (testRunEnded s rs).2
         = [Msg.testSuiteFinished (escape rs.runInfo.name)])
    ∧ (∀ (s : State) (cfg : Config) (now : Nat) (info : TestCaseInfo),
       pendingAfter (testCaseStarting s cfg now info).2 = [])
    ∧ (∀ (s : State) (now : Nat) (stats : TestCaseStats),
       pendingAfter (testCaseEnded s now stats).2 = [])
    ∧ (∀ (s : State) (now : Nat) (info : SectionInfo),
       pendingAfter (sectionStarting s now info).2 = [])
    ∧ (∀ (s : State) (now : Nat) (stats : SectionStats) (s2 : State) (outs : List Out),
       sectionEnded s now stats = some (s2, outs) → pendingAfter outs = [])
    ∧ (∀ (s : State) (stats : AssertionStats) (s2 : State) (outs : List Out),
       assertionEnded s stats = some (s2, outs) → pendingAfter outs = []) := by
  refine ⟨?_, ?_, ?_, ?_, ?_, ?_, ?_⟩
  · intro s ri
    simp [testRunStarting, pendingAfter, pendingRev]
  · intro s rs
    simp [testRunEnded, pendingAfter, pendingRev]
  · intro s cfg now info
    simp [testCaseStarting, pendingAfter, pendingRev]
  · intro s now stats
    by_cases hO : stats.stdOut = "" <;> by_cases hE : stats.stdErr = "" <;>
      simp [testCaseEnded, hO, hE, pendingAfter, pendingRev, List.reverse_append]
  · intro s now info
    unfold sectionStarting
    by_cases hc : s.lastTestCaseName = info.name
    · simp [hc, pendingAfter, pendingRev]
    · cases hs : s.sectionNameStack <;>
        simp [hc, hs, pendingAfter, pendingRev, List.reverse_append]
  · intro s now stats s2 outs heq
    unfold sectionEnded at heq
    by_cases hc : s.lastTestCaseName = stats.sectionInfo.name
    · rw [if_pos hc] at heq
      simp only [Option.some.injEq, Prod.mk.injEq] at heq
      rw [← heq.2]
      rfl
    · rw [if_neg hc] at heq
      cases ht : s.timerStack with
      | nil => simp [ht] at heq
      | cons t rest =>
        cases hn : s.sectionNameStack with
        | nil =>
          simp only [ht, hn, Option.some.injEq, Prod.mk.injEq] at heq
          rw [← heq.2]
          rfl
        | cons top nr =>
          simp only [ht, hn, Option.some.injEq, Prod.mk.injEq] at heq
          rw [← heq.2]
          rfl
  · intro s stats s2 outs heq
    unfold assertionEnded at heq
    by_cases hc : stats.assertionResult.ok = false
        ∨ stats.assertionResult.kind = ResultKind.ExplicitSkip
    · rw [if_pos hc] at heq
      cases hci : s.currentTestCaseInfo with
      | none => rw [hci] at heq; exact absurd heq (by simp)
      | some tci =>
        rw [hci] at heq
        cases hh : (if s.headerPrinted then some ""
            else printSectionHeader s.sectionStack) with
        | none => rw [hh] at heq; exact absurd heq (by simp)
        | some hdr =>
          rw [hh] at heq
          cases hk : kindText stats.assertionResult.kind with
          | none => rw [hk] at heq; exact absurd heq (by simp)
          | some ktext =>
            rw [hk] at heq
            simp only [Option.some.injEq] at heq
            have hout : outs = (failureOuts s stats tci hdr ktext).2 := by
              rw [heq]
            rw [hout]
            exact pendingAfter_failureOuts s stats tci hdr ktext
    · rw [if_neg hc] at heq
      simp only [Option.some.injEq, Prod.mk.injEq] at heq
      rw [← heq.2]
      rfl

/-- C9 witness: the assertion handler's no-emission path at a concrete
input still ends flushed. -/
theorem claim9_wit : pendingAfter [Out.flush] = [] :=
  claim9_thm.2.2.2.2.2.2 initState
    ⟨⟨ResultKind.Ok, true, "", false, "", ""⟩, []⟩ initState [Out.flush]
    (by decide)

/-- C5: the claim promises exactly one wire message for every not-ok or
explicitly skipped assertion, explicitly covering the case with no section
open (flowId falling back to the test-case full name).  At the reachable
failing input — the first qualifying assertion of a run, fired right after
testCaseStarting with the implicit top-level section event suppressed (so
the correlation-name stack and the base section stack are both empty, and
the header-printed flag is still clear, since nothing ever clears it and
sectionStarting returned before the base push) — the handler calls
printSectionHeader on the empty base section stack, whose failing assert
and front() on an empty vector are undefined (modelled as none): the run
aborts with no message emitted, against the claim. -/
theorem claim5_thm :
    sectionStarting (testCaseStarting initState ⟨""⟩ 0 ⟨"t", "", [], false⟩).1 1
        ⟨"t", "L"⟩
      = ((testCaseStarting initState ⟨""⟩ 0 ⟨"t", "", [], false⟩).1, [])
    ∧ (testCaseStarting initState ⟨""⟩ 0 ⟨"t", "", [], false⟩).1.sectionNameStack = []
    ∧ (testCaseStarting initState ⟨""⟩ 0 ⟨"t", "", [], false⟩).1.headerPrinted = false
    ∧ (testCaseStarting initState ⟨""⟩ 0 ⟨"t", "", [], false⟩).1.sectionStack = []
    ∧ assertionEnded (testCaseStarting initState ⟨""⟩ 0 ⟨"t", "", [], false⟩).1
        ⟨⟨ResultKind.ExpressionFailed, false, "src:1", true, "REQUIRE(x)", "1 == 2"⟩, []⟩
      = none := by
  refine ⟨by decide, rfl, rfl, rfl, by decide⟩

/-- C10: for a failing (or skipped) assertion the name attribute of the
emitted testFailed/testIgnored message is the escaped short test-case
name, while the enclosing testStarted carries the fully qualified name,
and the two always differ because the derived class-name part is never
empty (an empty class name defaults to the literal global dot). -/
theorem claim10_thm : ∀ (s0 : State) (cfg : Config) (now : Nat)
    (info : TestCaseInfo) (stats : AssertionStats) (ktext : String),
    (stats.assertionResult.ok = false
      ∨ stats.assertionResult.kind = ResultKind.ExplicitSkip) →
    kindText stats.assertionResult.kind = some ktext →
    (s0.headerPrinted = true ∨ s0.sectionStack ≠ []) →
    ∃ (s2 : State) (outs : List Out),
      assertionEnded (testCaseStarting s0 cfg now info).1 stats = some (s2, outs)
      ∧ (∀ m ∈ wireMsgs outs, msgName m = some (escape info.name))
      ∧ Out.msg (Msg.testStarted (testCaseStarting s0 cfg now info).1.lastTestCaseFullName
          (testCaseStarting s0 cfg now info).1.lastTestCaseFullName)
          ∈ (testCaseStarting s0 cfg now info).2
      ∧ escape info.name ≠ (testCaseStarting s0 cfg now info).1.lastTestCaseFullName := by
  intro s0 cfg now info stats ktext h2 h3 h4
  have h1 : (testCaseStarting s0 cfg now info).1.currentTestCaseInfo = some info := rfl
  have h4b : (testCaseStarting s0 cfg now info).1.headerPrinted = true
      ∨ (testCaseStarting s0 cfg now info).1.sectionStack ≠ [] := h4
  obtain ⟨hdr, heq⟩ := assertionEnded_shape (testCaseStarting s0 cfg now info).1
    stats info ktext h1 h2 h3 h4b
  refine ⟨(failureOuts (testCaseStarting s0 cfg now info).1 stats info hdr ktext).1,
    (failureOuts (testCaseStarting s0 cfg now info).1 stats info hdr ktext).2,
    by rw [heq], ?_, ?_, ?_⟩
  · intro m hm
    rw [wireMsgs_failureOuts] at hm
    simp only [List.mem_singleton] at hm
    rw [hm]
    split
    · rfl
    split
    · rfl
    · rfl
  · exact List.mem_cons_of_mem _ (List.mem_cons_self _ _)
  · exact ne_escape_prefixed (deriveClassName cfg info) (escape info.name)
      (deriveClassName_ne_empty cfg info)

/-- C10 witness at a concrete failing assertion. -/
theorem claim10_wit :
    escape "t" ≠ (testCaseStarting
      { initState with headerPrinted := true } ⟨""⟩ 0
      ⟨"t", "", [], false⟩).1.lastTestCaseFullName := by
  obtain ⟨s2, outs, heq, hnames, hmem, hne⟩ := claim10_thm
    { initState with headerPrinted := true } ⟨""⟩ 0 ⟨"t", "", [], false⟩
    ⟨⟨ResultKind.ExpressionFailed, false, "src:1", true, "REQUIRE(x)", "1 == 2"⟩, []⟩
    "expression failed" (Or.inl rfl) rfl (Or.inl rfl)
  exact hne

/-- C1 counterexample: with a section named a|b inside test case t, the
section's testStarted carries flowId global.t/a||b (the raw section name
escaped once by the outer escape call) while its testFinished carries
global.t/a||||b (the pushed id escaped a second time on pop) — the two
differ, and the start id also differs from the value
escape(full ++ / ++ escape(name)) stated by the claim. -/
theorem claim1_cex :
    (∃ (s3 : State) (o3 : List Out),
      sectionEnded (sectionStarting (testCaseStarting initState ⟨""⟩ 0
          ⟨"t", "", [], false⟩).1 1 ⟨"a|b", "f.cpp:1"⟩).1 3
          ⟨⟨"a|b", "f.cpp:1"⟩⟩ = some (s3, o3)
      ∧ startFinish ((testCaseStarting initState ⟨""⟩ 0 ⟨"t", "", [], false⟩).2
          ++ (sectionStarting (testCaseStarting initState ⟨""⟩ 0
              ⟨"t", "", [], false⟩).1 1 ⟨"a|b", "f.cpp:1"⟩).2
          ++ o3
          ++ (testCaseEnded s3 10 ⟨⟨"t", "", [], false⟩, "", ""⟩).2)
        = [Msg.testStarted "global.t" "global.t",
           Msg.testStarted "global.t/a||b" "global.t/a||b",
           Msg.testFinished "global.t/a||||b" 2 "global.t/a||||b",
           Msg.testFinished "global.t" 10 "global.t"])
    ∧ ("global.t/a||b" : String) ≠ "global.t/a||||b"
    ∧ ("global.t/a||b" : String) ≠ escape ("global.t" ++ "/" ++ escape "a|b") := by
  refine ⟨⟨_, _, rfl, by decide⟩, by decide, by decide⟩

/-- C1 (amended): for a test case containing one section S (whose name
differs from the stored escaped test-case name), S's testStarted carries
flowId escape(fullName ++ / ++ S.name) — the raw section name escaped once
— and S's testFinished carries that id escaped a second time; the two
coincide exactly when the pushed id is free of escapable characters.  The
section's pair is emitted strictly inside the test case's own
testStarted/testFinished pair in emission order. -/
theorem claim1_thm : ∀ (s0 : State) (cfg : Config) (info : TestCaseInfo)
    (S : SectionInfo) (secStats : SectionStats) (tcStats : TestCaseStats)
    (t1 t2 t3 t4 : Nat),
    s0.sectionNameStack = [] →
    s0.timerStack = [] →
    S.name ≠ escape info.name →
    secStats.sectionInfo.name = S.name →
    ∃ (s3 : State) (o3 : List Out),
      sectionEnded (sectionStarting (testCaseStarting s0 cfg t1 info).1 t2 S).1
          t3 secStats = some (s3, o3)
      ∧ startFinish ((testCaseStarting s0 cfg t1 info).2
          ++ (sectionStarting (testCaseStarting s0 cfg t1 info).1 t2 S).2
          ++ o3
          ++ (testCaseEnded s3 t4 tcStats).2)
        = [Msg.testStarted (testCaseStarting s0 cfg t1 info).1.lastTestCaseFullName
            (testCaseStarting s0 cfg t1 info).1.lastTestCaseFullName,
           Msg.testStarted
            (escape ((testCaseStarting s0 cfg t1 info).1.lastTestCaseFullName
              ++ "/" ++ S.name))
            (escape ((testCaseStarting s0 cfg t1 info).1.lastTestCaseFullName
              ++ "/" ++ S.name)),
           Msg.testFinished
            (escape (escape ((testCaseStarting s0 cfg t1 info).1.lastTestCaseFullName
              ++ "/" ++ S.name)))
            (t3 - t2)
            (escape (escape ((testCaseStarting s0 cfg t1 info).1.lastTestCaseFullName
              ++ "/" ++ S.name))),
           Msg.testFinished (testCaseStarting s0 cfg t1 info).1.lastTestCaseFullName
            (t4 - t1)
            (testCaseStarting s0 cfg t1 info).1.lastTestCaseFullName] := by
  intro s0 cfg info S secStats tcStats t1 t2 t3 t4 h0 h0t hS hsec
  have hc1 : (testCaseStarting s0 cfg t1 info).1.lastTestCaseName ≠ S.name := by
    intro h
    exact hS h.symm
  have hn1 : (testCaseStarting s0 cfg t1 info).1.sectionNameStack = [] := h0
  have hstep2 := sectionStarting_push (testCaseStarting s0 cfg t1 info).1 t2 S hc1 hn1
  have hc2 : (sectionStarting (testCaseStarting s0 cfg t1 info).1 t2 S).1.lastTestCaseName
      ≠ secStats.sectionInfo.name := by
    rw [hstep2, hsec]
    exact fun h => hS h.symm
  have ht2 : (sectionStarting (testCaseStarting s0 cfg t1 info).1 t2 S).1.timerStack
      = Timer.start t2 :: [] := by
    rw [hstep2]
    show Timer.start t2 :: (testCaseStarting s0 cfg t1 info).1.timerStack
      = Timer.start t2 :: []
    rw [show (testCaseStarting s0 cfg t1 info).1.timerStack = [] from h0t]
  have hn2 : (sectionStarting (testCaseStarting s0 cfg t1 info).1 t2 S).1.sectionNameStack
      = escape ((testCaseStarting s0 cfg t1 info).1.lastTestCaseFullName
          ++ "/" ++ S.name) :: [] := by
    rw [hstep2]
  have hstep3 := sectionEnded_pop
    (sectionStarting (testCaseStarting s0 cfg t1 info).1 t2 S).1 t3 secStats
    (Timer.start t2) []
    (escape ((testCaseStarting s0 cfg t1 info).1.lastTestCaseFullName ++ "/" ++ S.name))
    [] hc2 ht2 hn2
  refine ⟨_, _, hstep3, ?_⟩
  rw [startFinish_append, startFinish_append, startFinish_append, hstep2,
    startFinish_testCaseEnded]
  simp [startFinish, testCaseStarting, Timer.elapsed, Timer.start]

/-- C1 witness: an escape-free trace in which the two section flow ids
coincide. -/
theorem claim1_wit :
    ∃ (s3 : State) (o3 : List Out),
      sectionEnded (sectionStarting (testCaseStarting initState ⟨""⟩ 0
          ⟨"t", "", [], false⟩).1 1 ⟨"s1", "L"⟩).1 3 ⟨⟨"s1", "L"⟩⟩ = some (s3, o3)
      ∧ startFinish ((testCaseStarting initState ⟨""⟩ 0 ⟨"t", "", [], false⟩).2
          ++ (sectionStarting (testCaseStarting initState ⟨""⟩ 0
              ⟨"t", "", [], false⟩).1 1 ⟨"s1", "L"⟩).2
          ++ o3
          ++ (testCaseEnded s3 10 ⟨⟨"t", "", [], false⟩, "", ""⟩).2)
        = [Msg.testStarted (testCaseStarting initState ⟨""⟩ 0
              ⟨"t", "", [], false⟩).1.lastTestCaseFullName
            (testCaseStarting initState ⟨""⟩ 0
              ⟨"t", "", [], false⟩).1.lastTestCaseFullName,
           Msg.testStarted
            (escape ((testCaseStarting initState ⟨""⟩ 0
              ⟨"t", "", [], false⟩).1.lastTestCaseFullName ++ "/" ++ "s1"))
            (escape ((testCaseStarting initState ⟨""⟩ 0
              ⟨"t", "", [], false⟩).1.lastTestCaseFullName ++ "/" ++ "s1")),
           Msg.testFinished
            (escape (escape ((testCaseStarting initState ⟨""⟩ 0
              ⟨"t", "", [], false⟩).1.lastTestCaseFullName ++ "/" ++ "s1")))
            (3 - 1)
            (escape (escape ((testCaseStarting initState ⟨""⟩ 0
              ⟨"t", "", [], false⟩).1.lastTestCaseFullName ++ "/" ++ "s1"))),
           Msg.testFinished (testCaseStarting initState ⟨""⟩ 0
              ⟨"t", "", [], false⟩).1.lastTestCaseFullName
            (10 - 0)
            (testCaseStarting initState ⟨""⟩ 0
              ⟨"t", "", [], false⟩).1.lastTestCaseFullName] :=
  claim1_thm initState ⟨""⟩ ⟨"t", "", [], false⟩ ⟨"s1", "L"⟩ ⟨⟨"s1", "L"⟩⟩
    ⟨⟨"t", "", [], false⟩, "", ""⟩ 0 1 3 10 rfl rfl (by decide) rfl

end TeamCity
